import Mathlib

/-!
Shallow embedding of the synacore virtual machine (`src/main.rs`).

The Rust VM keeps a single `Vec<u16>` of `32768 + 8` cells (program memory
in `0..32767`, registers in `32768..32775`), a `Vec<u16>` stack, a `usize`
instruction pointer, a `VecDeque<char>` input buffer and a debug flag.
Machine words are `u16`; we model them as `Nat` and insert `% 65536`
(resp. `% 256`) exactly at the Rust cast / overflow sites.  Rust panics
(out-of-bounds indexing, `unwrap` on `None`, explicit `panic!`, division
by zero) are modelled as `Except.error` with a constructor per panic site.
The symbol table and all `print_op` tracing affect only stderr text and are
omitted; the output sink (`print!` in the `out` arm) is modelled as an
accumulated list of emitted character codes.  The external line source
feeding the blocking `read!` in the `in` arm is modelled as a list of
pending lines (each a list of character codes, without the terminating
newline, as produced by `read!("{}\n")`).
-/

namespace Synacore

/-- `static LIMIT: u16 = 32768` from the source. -/
def LIMIT : Nat := 32768

/-- The length of the address-space vector built by `VM::new`:
`LIMIT as usize + 8` cells, never resized afterwards. -/
def MEM_SIZE : Nat := LIMIT + 8

/-- Fatal aborts of the Rust program, one constructor per panic site. -/
inductive VMError where
  /-- the explicit `panic!("Invalid addr: {}")` guard in `convert_arg` / `store` -/
  | invalidAddr (a : Nat)
  /-- an out-of-bounds `Vec` index panic on the memory vector -/
  | indexOutOfBounds (i : Nat)
  /-- the `panic!("Invalid register: {}")` guard in `regs` -/
  | invalidRegister (i : Nat)
  /-- `self.stack.pop().unwrap()` on an empty stack in the `pop` arm -/
  | stackUnderflow
  /-- `panic!("not sure what to do with instruction {}")` -/
  | invalidOpcode (op : Nat)
  /-- `b_val % c_val` with `c_val == 0` (Rust u16 remainder panics) -/
  | divByZero
  /-- `self.input_buffer.pop_front().unwrap()` on an empty buffer -/
  | unwrapFail
deriving DecidableEq, Repr

/-- Why the main loop `break`s out (all graceful terminations). -/
inductive HaltReason where
  /-- opcode 0 (`halt`) -/
  | explicitHalt
  /-- opcode 18 (`ret`) with an empty stack -/
  | retHalt
  /-- `self.ip + 1 > self.mem.len()` at the top of the loop -/
  | outOfRange
deriving DecidableEq, Repr

/-- The mutable state of `struct VM` (minus the trace-only `symbols` map),
plus the accumulated output of the `out` instruction.  `mem` is the
unified address space; only indices `< MEM_SIZE` are ever read or
written.  The stack's top is the head of the list. -/
structure VM where
  mem : Nat → Nat
  stack : List Nat
  ip : Nat
  input_buffer : List Nat
  debug : Bool
  output : List Nat

/-- `self.mem[i]` as a read: in bounds returns the cell, out of bounds is
the Rust index panic. -/
def memGet (vm : VM) (i : Nat) : Except VMError Nat :=
  if i < MEM_SIZE then .ok (vm.mem i) else .error (.indexOutOfBounds i)

/-- `self.mem[i] = v`: in bounds updates the cell, out of bounds is the
Rust index panic. -/
def memSet (vm : VM) (i v : Nat) : Except VMError VM :=
  if i < MEM_SIZE then
    .ok { vm with mem := fun j => if j = i then v else vm.mem j }
  else .error (.indexOutOfBounds i)

/-- `VM::regs`: register read used by the tests (and tracing). -/
def regs (vm : VM) (idx : Nat) : Except VMError Nat :=
  if 7 < idx then .error (.invalidRegister idx)
  else memGet vm (LIMIT + idx)

/-- `VM::convert_arg`: value resolution of an operand word.  Note the
guard is `addr > LIMIT + 8` (that is, `> 32776`), so `32776` passes the
guard and then faults on the memory read `self.mem[32776]`. -/
def convert_arg (vm : VM) (addr : Nat) : Except VMError Nat :=
  if LIMIT + 8 < addr then .error (.invalidAddr addr)
  else if LIMIT ≤ addr then memGet vm addr
  else .ok addr

/-- `VM::store`: destination write.  The destination word is used directly
as an index into the unified address space — no value resolution.  The
guard is again `addr > LIMIT + 8`, so `32776` passes it and faults on the
write `self.mem[32776] = val`. -/
def store (vm : VM) (addr val : Nat) : Except VMError VM :=
  if LIMIT + 8 < addr then .error (.invalidAddr addr)
  else memSet vm addr val

/-- `VM::new`: a zeroed address space of `MEM_SIZE` cells with the program
image copied into the low region (`None` models the size `panic!`). -/
def VM.new (input : List Nat) : Option VM :=
  if MEM_SIZE < input.length then none
  else some { mem := fun i => input.getD i 0, stack := [], ip := 0,
              input_buffer := [], debug := false, output := [] }

/-- Rust `str::split(" ")` on a list of character codes (space = 32):
always returns at least one piece, and keeps empty pieces. -/
def splitSp : List Nat → List (List Nat)
  | [] => [[]]
  | c :: rest =>
    let r := splitSp rest
    if c = 32 then [] :: r
    else
      match r with
      | [] => [[c]]
      | p :: ps => (c :: p) :: ps

/-- One digit of `u16::from_str_radix`: `0-9`, `a-z`, `A-Z`, valid for the
given radix. -/
def digitVal (radix c : Nat) : Option Nat :=
  let d :=
    if 48 ≤ c ∧ c ≤ 57 then some (c - 48)
    else if 97 ≤ c ∧ c ≤ 122 then some (c - 87)
    else if 65 ≤ c ∧ c ≤ 90 then some (c - 55)
    else none
  match d with
  | some v => if v < radix then some v else none
  | none => none

/-- `u16::from_str_radix(s, radix)`: optional leading `+` (43), at least
one digit, all digits valid, value within `u16` (overflow is an error). -/
def fromStrRadix (radix : Nat) (s : List Nat) : Option Nat :=
  let digits :=
    match s with
    | 43 :: rest => rest
    | _ => s
  if digits = [] then none
  else
    digits.foldl
      (fun acc c =>
        match acc with
        | none => none
        | some n =>
          match digitVal radix c with
          | none => none
          | some d => if n * radix + d ≤ 65535 then some (n * radix + d) else none)
      (some 0)

/-- `VM::handle_debug`: interpret a reserved-prefix line (passed without
its newline).  `line[1..]` is split on spaces; the directives are
`wmem <hexAddr> <hexVal>` (raw memory write, can fault out of bounds),
`wreg <decReg> <decVal>` (register write, reg `> 7` is a recovered local
error) and `debug` (toggle the trace flag); everything else, including
parse failures, only prints and leaves the VM unchanged.  The input
buffer is never touched. -/
def handle_debug (vm : VM) (line : List Nat) : Except VMError VM :=
  let parts := splitSp (line.drop 1)
  let cmd := parts.headD []
  if cmd = [119, 109, 101, 109] then
    if 3 ≤ parts.length then
      match fromStrRadix 16 (parts.getD 1 []), fromStrRadix 16 (parts.getD 2 []) with
      | some a, some v => memSet vm a v
      | _, _ => .ok vm
    else .ok vm
  else if cmd = [119, 114, 101, 103] then
    if 3 ≤ parts.length then
      match fromStrRadix 10 (parts.getD 1 []), fromStrRadix 10 (parts.getD 2 []) with
      | some r, some v =>
        if 7 < r then .ok vm
        else memSet vm (r + LIMIT) v
      | _, _ => .ok vm
    else .ok vm
  else if cmd = [100, 101, 98, 117, 103] then
    .ok { vm with debug := !vm.debug }
  else .ok vm

/-- The `while self.input_buffer.len() == 0` pull loop of the `in` arm:
pull one line, enqueue its characters plus a newline (10), and if the
buffer now starts with the reserved prefix `.` (46), run `handle_debug`
on the line, clear the buffer and keep pulling.  `none` models the read
blocking forever because the external line source is exhausted. -/
def refillLoop : VM → List (List Nat) → Except VMError (Option (VM × List (List Nat)))
  | _, [] => .ok none
  | vm, l :: rest =>
    let vm1 : VM := { vm with input_buffer := vm.input_buffer ++ l ++ [10] }
    if vm1.input_buffer.headD 0 = 46 then
      match handle_debug vm1 l with
      | .error e => .error e
      | .ok vm2 =>
        let vm3 : VM := { vm2 with input_buffer := [] }
        if vm3.input_buffer.length = 0 then refillLoop vm3 rest
        else .ok (some (vm3, rest))
    else .ok (some (vm1, rest))

/-- The `if self.input_buffer.len() == 0` guard around the pull loop. -/
def inRefill (vm : VM) (lines : List (List Nat)) :
    Except VMError (Option (VM × List (List Nat))) :=
  if vm.input_buffer.length = 0 then refillLoop vm lines
  else .ok (some (vm, lines))

/-- Outcome of one trip around the `loop` in `VM::run`. -/
inductive Step where
  /-- the loop continues with the mutated state -/
  | next (vm : VM) (lines : List (List Nat))
  /-- a `break`: graceful termination -/
  | halted (r : HaltReason) (vm : VM) (lines : List (List Nat))
  /-- the `in` arm is blocked on an exhausted line source -/
  | blocked (vm : VM)

/-- One iteration of the fetch/decode/execute `loop` in `VM::run`,
arm by arm in source order.  `% 65536` marks the `u16` cast / overflow
sites (`as u16`, wrapping `+`), `% 256` the `as u8` cast in `out`. -/
def step (vm : VM) (lines : List (List Nat)) : Except VMError Step :=
  if vm.ip + 1 > MEM_SIZE then .ok (.halted .outOfRange vm lines)
  else
    let instr := vm.mem vm.ip
    if instr = 0 then .ok (.halted .explicitHalt vm lines)
    else if instr = 1 then do
      let a ← memGet vm (vm.ip + 1)
      let b ← memGet vm (vm.ip + 2)
      let b_val ← convert_arg vm b
      let vm1 ← store vm a b_val
      .ok (.next { vm1 with ip := vm1.ip + 3 } lines)
    else if instr = 2 then do
      let a ← memGet vm (vm.ip + 1)
      let a_val ← convert_arg vm a
      .ok (.next { vm with stack := a_val :: vm.stack, ip := vm.ip + 2 } lines)
    else if instr = 3 then do
      let a ← memGet vm (vm.ip + 1)
      match vm.stack with
      | [] => .error .stackUnderflow
      | v :: rest => do
        let vm1 ← store { vm with stack := rest } a v
        .ok (.next { vm1 with ip := vm1.ip + 2 } lines)
    else if instr = 4 then do
      let a ← memGet vm (vm.ip + 1)
      let b ← memGet vm (vm.ip + 2)
      let c ← memGet vm (vm.ip + 3)
      let b_val ← convert_arg vm b
      let c_val ← convert_arg vm c
      let vm1 ← if b_val = c_val then store vm a 1 else store vm a 0
      .ok (.next { vm1 with ip := vm1.ip + 4 } lines)
    else if instr = 5 then do
      let a ← memGet vm (vm.ip + 1)
      let b ← memGet vm (vm.ip + 2)
      let c ← memGet vm (vm.ip + 3)
      let b_val ← convert_arg vm b
      let c_val ← convert_arg vm c
      let vm1 ← if c_val < b_val then store vm a 1 else store vm a 0
      .ok (.next { vm1 with ip := vm1.ip + 4 } lines)
    else if instr = 6 then do
      let a ← memGet vm (vm.ip + 1)
      let arg ← convert_arg vm a
      .ok (.next { vm with ip := arg } lines)
    else if instr = 7 then do
      let a ← memGet vm (vm.ip + 1)
      let b ← memGet vm (vm.ip + 2)
      let a_val ← convert_arg vm a
      let b_val ← convert_arg vm b
      if a_val ≠ 0 then .ok (.next { vm with ip := b_val } lines)
      else .ok (.next { vm with ip := vm.ip + 3 } lines)
    else if instr = 8 then do
      let a ← memGet vm (vm.ip + 1)
      let b ← memGet vm (vm.ip + 2)
      let a_val ← convert_arg vm a
      let b_val ← convert_arg vm b
      if a_val = 0 then .ok (.next { vm with ip := b_val } lines)
      else .ok (.next { vm with ip := vm.ip + 3 } lines)
    else if instr = 9 then do
      let a ← memGet vm (vm.ip + 1)
      let b ← memGet vm (vm.ip + 2)
      let c ← memGet vm (vm.ip + 3)
      let b_val ← convert_arg vm b
      let c_val ← convert_arg vm c
      let r := ((b_val + c_val) % 65536) % LIMIT
      let vm1 ← store vm a r
      .ok (.next { vm1 with ip := vm1.ip + 4 } lines)
    else if instr = 10 then do
      let a ← memGet vm (vm.ip + 1)
      let b ← memGet vm (vm.ip + 2)
      let c ← memGet vm (vm.ip + 3)
      let b_val ← convert_arg vm b
      let c_val ← convert_arg vm c
      let r := (b_val * c_val) % LIMIT
      let vm1 ← store vm a r
      .ok (.next { vm1 with ip := vm1.ip + 4 } lines)
    else if instr = 11 then do
      let a ← memGet vm (vm.ip + 1)
      let b ← memGet vm (vm.ip + 2)
      let c ← memGet vm (vm.ip + 3)
      let b_val ← convert_arg vm b
      let c_val ← convert_arg vm c
      if c_val = 0 then .error .divByZero
      else do
        let vm1 ← store vm a (b_val % c_val)
        .ok (.next { vm1 with ip := vm1.ip + 4 } lines)
    else if instr = 12 then do
      let a ← memGet vm (vm.ip + 1)
      let b ← memGet vm (vm.ip + 2)
      let c ← memGet vm (vm.ip + 3)
      let b_val ← convert_arg vm b
      let c_val ← convert_arg vm c
      let vm1 ← store vm a (b_val &&& c_val)
      .ok (.next { vm1 with ip := vm1.ip + 4 } lines)
    else if instr = 13 then do
      let a ← memGet vm (vm.ip + 1)
      let b ← memGet vm (vm.ip + 2)
      let c ← memGet vm (vm.ip + 3)
      let b_val ← convert_arg vm b
      let c_val ← convert_arg vm c
      let vm1 ← store vm a (b_val ||| c_val)
      .ok (.next { vm1 with ip := vm1.ip + 4 } lines)
    else if instr = 14 then do
      let a ← memGet vm (vm.ip + 1)
      let b ← memGet vm (vm.ip + 2)
      let b_val ← convert_arg vm b
      let vm1 ← store vm a (((b_val % 65536) ^^^ 65535) &&& 32767)
      .ok (.next { vm1 with ip := vm1.ip + 3 } lines)
    else if instr = 15 then do
      let a ← memGet vm (vm.ip + 1)
      let b ← memGet vm (vm.ip + 2)
      let b_val ← convert_arg vm b
      let r ← memGet vm b_val
      let vm1 ← store vm a r
      .ok (.next { vm1 with ip := vm1.ip + 3 } lines)
    else if instr = 16 then do
      let a ← memGet vm (vm.ip + 1)
      let b ← memGet vm (vm.ip + 2)
      let a_val ← convert_arg vm a
      let b_val ← convert_arg vm b
      let vm1 ← memSet vm a_val b_val
      .ok (.next { vm1 with ip := vm1.ip + 3 } lines)
    else if instr = 17 then do
      let a ← memGet vm (vm.ip + 1)
      let a_val ← convert_arg vm a
      .ok (.next { vm with stack := ((vm.ip + 2) % 65536) :: vm.stack, ip := a_val } lines)
    else if instr = 18 then
      match vm.stack with
      | [] => .ok (.halted .retHalt vm lines)
      | v :: rest => .ok (.next { vm with stack := rest, ip := v } lines)
    else if instr = 19 then do
      let a ← memGet vm (vm.ip + 1)
      let a_val ← convert_arg vm a
      .ok (.next { vm with output := vm.output ++ [a_val % 256], ip := vm.ip + 2 } lines)
    else if instr = 20 then do
      let pulled ← inRefill vm lines
      match pulled with
      | none => .ok (.blocked vm)
      | some (vm1, lines1) => do
        let a ← memGet vm1 (vm1.ip + 1)
        match vm1.input_buffer with
        | [] => .error .unwrapFail
        | c :: rest => do
          let vm2 ← store { vm1 with input_buffer := rest } a (c % 65536)
          .ok (.next { vm2 with ip := vm2.ip + 2 } lines1)
    else if instr = 21 then
      .ok (.next { vm with ip := vm.ip + 1 } lines)
    else .error (.invalidOpcode instr)

/-- How a bounded run of the main loop ended. -/
inductive RunEnd where
  | halted (r : HaltReason) (vm : VM) (lines : List (List Nat))
  | blocked (vm : VM)
  | fuelOut (vm : VM) (lines : List (List Nat))

/-- Iterate `step` at most `fuel` times (the Rust loop has no bound; all
runs we reason about terminate within the given fuel). -/
def run : Nat → VM → List (List Nat) → Except VMError RunEnd
  | 0, vm, lines => .ok (.fuelOut vm lines)
  | fuel + 1, vm, lines => do
    match ← step vm lines with
    | .next vm1 lines1 => run fuel vm1 lines1
    | .halted r vm1 lines1 => .ok (.halted r vm1 lines1)
    | .blocked vm1 => .ok (.blocked vm1)

instance {ε α : Type} [DecidableEq ε] [DecidableEq α] : DecidableEq (Except ε α) :=
  fun a b =>
    match a, b with
    | .ok x, .ok y =>
      if h : x = y then isTrue (by rw [h]) else isFalse fun heq => h (Except.ok.inj heq)
    | .error x, .error y =>
      if h : x = y then isTrue (by rw [h]) else isFalse fun heq => h (Except.error.inj heq)
    | .ok _, .error _ => isFalse fun heq => Except.noConfusion heq
    | .error _, .ok _ => isFalse fun heq => Except.noConfusion heq

/-- Observable end state of running a program image from `VM::new` with no
pending input lines: the halt reason, final instruction pointer, final
register 0 and the emitted character codes. -/
def afterRun (p : List Nat) (fuel : Nat) :
    Option (HaltReason × Nat × Nat × List Nat) :=
  match VM.new p with
  | none => none
  | some vm =>
    match run fuel vm [] with
    | .ok (.halted r vmf _) =>
      match regs vmf 0 with
      | .ok v => some (r, vmf.ip, v, vmf.output)
      | .error _ => none
    | _ => none

/-- A fresh VM over a (fitting) program image, as built by `VM::new`. -/
def mkVM (prog : List Nat) : VM :=
  { mem := fun i => prog.getD i 0, stack := [], ip := 0,
    input_buffer := [], debug := false, output := [] }

/-- Memory cell `i` after one successful, continuing step from `vm` with
no pending input lines (`none` when the step errors or halts). -/
def stepMemAfter (vm : VM) (i : Nat) : Option Nat :=
  match step vm [] with
  | .ok (.next vmf _) => some (vmf.mem i)
  | _ => none

/-- Register `k` after one successful, continuing step from `vm` with no
pending input lines. -/
def stepRegsAfter (vm : VM) (k : Nat) : Option Nat :=
  match step vm [] with
  | .ok (.next vmf _) =>
    match regs vmf k with
    | .ok v => some v
    | .error _ => none
  | _ => none

/-- The VM used to exercise C9's division-by-zero branch: `mod` with a
zero literal divisor. -/
def modZeroVM : VM := mkVM [11, 5, 9, 0]

/-- The fatal error of one step from `vm` with no pending input lines,
if any. -/
def stepErrAfter (vm : VM) : Option VMError :=
  match step vm [] with
  | .error e => some e
  | .ok _ => none

/-- A state about to execute `rmem` whose source address operand resolves
(through register 0) to the register-range address 32770 (register 2,
holding 9). -/
def rmemRegVM : VM :=
  { mem := fun i =>
      if i = 32768 then 32770
      else if i = 32770 then 9
      else [15, 3, 32768].getD i 0,
    stack := [], ip := 0, input_buffer := [], debug := false, output := [] }

/-- A state about to execute `pop` into register 0 with one word (5) on
the stack. -/
def popVM : VM := { mkVM [3, 32768] with stack := [5] }

/-- A state about to execute `wmem` whose address operand is the register
selector 32768 and whose register 0 holds 32770 — so the value-resolved
address is itself a register-range index (register 2). -/
def wmemCexVM : VM :=
  { mem := fun i => if i = 32768 then 32770 else [16, 32768, 7].getD i 0,
    stack := [], ip := 0, input_buffer := [], debug := false, output := [] }

/-- The character codes of the debug-directive line `.debug`. -/
def dotDebugLine : List Nat := [46, 100, 101, 98, 117, 103]

/-- The transient state inside the pull loop right after enqueueing the
`.debug` line (plus newline) into a fresh VM's empty buffer. -/
def c8vm1 : VM :=
  { mkVM [] with input_buffer := (mkVM []).input_buffer ++ dotDebugLine ++ [10] }

/-- The state `handle_debug` produces from `c8vm1` for the `.debug`
directive: the trace flag toggled, everything else (the buffer included)
untouched. -/
def c8vm2 : VM := { c8vm1 with debug := !c8vm1.debug }

/-- A state about to execute `wmem` whose address operand resolves
(through register 0) to 32776 — one past the end of the unified address
space, so the write itself faults. -/
def wmemOobVM : VM :=
  { mem := fun i => if i = 32768 then 32776 else [16, 32768, 7].getD i 0,
    stack := [], ip := 0, input_buffer := [], debug := false, output := [] }

/-- C6: whenever the instruction pointer plus one exceeds the memory
length, the loop transitions to the graceful `outOfRange` halt — an `ok`
result, never an `error` —, leaving the state untouched. -/
theorem c6_out_of_range_graceful (vm : VM) (lines : List (List Nat))
    (h : vm.ip + 1 > MEM_SIZE) :
    step vm lines = .ok (.halted .outOfRange vm lines) := by
  unfold step
  rw [if_pos h]

theorem c6_out_of_range_graceful_witness :
    ({ mkVM [] with ip := 40000 } : VM).ip + 1 > MEM_SIZE ∧
    step { mkVM [] with ip := 40000 } [] =
      .ok (.halted .outOfRange { mkVM [] with ip := 40000 } []) :=
  ⟨by decide, c6_out_of_range_graceful _ _ (by decide)⟩

/-- C7: the six-word program `[9, 32768, 32769, 4, 19, 32768]` run on a
zero-initialized VM emits exactly the character code 4 and halts
explicitly with instruction pointer 6 and register 0 equal to 4. -/
theorem c7_test_program :
    afterRun [9, 32768, 32769, 4, 19, 32768] 10 =
      some (.explicitHalt, 6, 4, [4]) := by decide

/-- C3 (amended): value resolution returns the word itself below 32768
and the corresponding register's content for `[32768, 32775]`, and fails
fatally for every word above 32775 — but the guard `addr > LIMIT + 8`
lets the word 32776 through, so 32776 dies on the out-of-bounds memory
read rather than on the explicit invalid-operand panic, which only words
`≥ 32777` reach. -/
theorem c3_resolve_value_amended (vm : VM) (w : Nat) :
    (w < LIMIT → convert_arg vm w = .ok w) ∧
    (LIMIT ≤ w → w ≤ LIMIT + 7 →
      convert_arg vm w = .ok (vm.mem w) ∧ regs vm (w - LIMIT) = .ok (vm.mem w)) ∧
    (w = LIMIT + 8 → convert_arg vm w = .error (.indexOutOfBounds w)) ∧
    (LIMIT + 8 < w → convert_arg vm w = .error (.invalidAddr w)) := by
  unfold convert_arg regs memGet
  refine ⟨fun h => ?_, fun h1 h2 => ⟨?_, ?_⟩, fun h => ?_, fun h => ?_⟩
  · rw [if_neg (by simp only [LIMIT] at *; omega), if_neg (by simp only [LIMIT] at *; omega)]
  · rw [if_neg (by simp only [LIMIT] at *; omega), if_pos h1,
      if_pos (by simp only [LIMIT, MEM_SIZE] at *; omega)]
  · rw [if_neg (by simp only [LIMIT] at *; omega),
      show LIMIT + (w - LIMIT) = w by simp only [LIMIT] at *; omega,
      if_pos (by simp only [LIMIT, MEM_SIZE] at *; omega)]
  · rw [if_neg (by omega), if_pos (by simp only [LIMIT] at *; omega),
      if_neg (by simp only [LIMIT, MEM_SIZE] at *; omega), h]
  · rw [if_pos h]

/-- C3: the concrete boundary word 32776 fails with the out-of-bounds
index fault, not with the invalid-operand (`Invalid addr`) panic the
claim names. -/
theorem c3_boundary_counterexample :
    convert_arg (mkVM []) 32776 = .error (.indexOutOfBounds 32776) ∧
    (Except.error (VMError.indexOutOfBounds 32776) : Except VMError Nat) ≠
      .error (.invalidAddr 32776) := by decide

theorem c3_resolve_value_amended_witness :
    convert_arg (mkVM [7, 8]) 1 = .ok 1 ∧
    (convert_arg (mkVM [7, 8]) 32770 = .ok ((mkVM [7, 8]).mem 32770) ∧
      regs (mkVM [7, 8]) 2 = .ok ((mkVM [7, 8]).mem 32770)) ∧
    convert_arg (mkVM [7, 8]) 32776 = .error (.indexOutOfBounds 32776) ∧
    convert_arg (mkVM [7, 8]) 40000 = .error (.invalidAddr 40000) :=
  ⟨(c3_resolve_value_amended (mkVM [7, 8]) 1).1 (by decide),
   (c3_resolve_value_amended (mkVM [7, 8]) 32770).2.1 (by decide) (by decide),
   (c3_resolve_value_amended (mkVM [7, 8]) 32776).2.2.1 (by decide),
   (c3_resolve_value_amended (mkVM [7, 8]) 40000).2.2.2 (by decide)⟩

/-- C9: the `mod` arm's division is unguarded — a resolved divisor of 0
takes the fatal division-by-zero branch, and a nonzero divisor stores
`value(b) mod value(c)` into the destination. -/
theorem c9_mod_unguarded (vm : VM) (lines : List (List Nat)) (a b c bv cv : Nat)
    (hip : ¬ vm.ip + 1 > MEM_SIZE)
    (hfetch : vm.mem vm.ip = 11)
    (ha : memGet vm (vm.ip + 1) = .ok a)
    (hb : memGet vm (vm.ip + 2) = .ok b)
    (hc : memGet vm (vm.ip + 3) = .ok c)
    (hbv : convert_arg vm b = .ok bv)
    (hcv : convert_arg vm c = .ok cv)
    (hdest : a < MEM_SIZE) :
    (cv = 0 → step vm lines = .error .divByZero) ∧
    (cv ≠ 0 → step vm lines =
      .ok (.next { vm with mem := fun j => if j = a then bv % cv else vm.mem j,
                           ip := vm.ip + 4 } lines)) := by
  have hna : ¬ LIMIT + 8 < a := by simp only [MEM_SIZE] at hdest; omega
  constructor <;> intro h0 <;>
    simp [step, hip, hfetch, ha, hb, hc, hbv, hcv, h0, store, memSet, hdest, hna,
      Except.bind, Bind.bind]

theorem c9_mod_unguarded_witness :
    (4 = 0 → step (mkVM [11, 5, 9, 4]) [] = .error .divByZero) ∧
    (4 ≠ 0 → step (mkVM [11, 5, 9, 4]) [] =
      .ok (.next { mkVM [11, 5, 9, 4] with
        mem := fun j => if j = 5 then 9 % 4 else (mkVM [11, 5, 9, 4]).mem j,
        ip := (mkVM [11, 5, 9, 4]).ip + 4 } [])) :=
  c9_mod_unguarded (mkVM [11, 5, 9, 4]) [] 5 9 4 9 4 (by decide) (by decide)
    (by decide) (by decide) (by decide) (by decide) (by decide) (by decide)

/-- Supporting evaluation: the zero-divisor `mod` program indeed dies on
the division-by-zero branch. -/
theorem mod_zero_divisor_aborts : stepErrAfter modZeroVM = some .divByZero := by decide

/-- C10: when `rmem`'s resolved source address lies in the register range
`[32768, 32775]`, the destination receives the content of register
`address - 32768` — registers are readable through `rmem`'s unified
address space. -/
theorem c10_rmem_reads_registers (vm : VM) (lines : List (List Nat)) (a b v : Nat)
    (hip : ¬ vm.ip + 1 > MEM_SIZE)
    (hfetch : vm.mem vm.ip = 15)
    (ha : memGet vm (vm.ip + 1) = .ok a)
    (hb : memGet vm (vm.ip + 2) = .ok b)
    (hbv : convert_arg vm b = .ok v)
    (hv1 : LIMIT ≤ v) (hv2 : v ≤ LIMIT + 7)
    (hdest : a < MEM_SIZE) :
    step vm lines =
      .ok (.next { vm with mem := fun j => if j = a then vm.mem v else vm.mem j,
                           ip := vm.ip + 3 } lines) ∧
    regs vm (v - LIMIT) = .ok (vm.mem v) := by
  have hna : ¬ LIMIT + 8 < a := by simp only [MEM_SIZE] at hdest; omega
  have hvm : v < MEM_SIZE := by simp only [MEM_SIZE]; omega
  have hr : memGet vm v = .ok (vm.mem v) := by rw [memGet, if_pos hvm]
  constructor
  · simp [step, hip, hfetch, ha, hb, hbv, hr, store, memSet, hdest, hna,
      Except.bind, Bind.bind]
  · rw [regs, if_neg (by omega), show LIMIT + (v - LIMIT) = v by omega,
      memGet, if_pos hvm]

theorem c10_rmem_reads_registers_witness :
    step rmemRegVM [] =
      .ok (.next { rmemRegVM with
        mem := fun j => if j = 3 then rmemRegVM.mem 32770 else rmemRegVM.mem j,
        ip := rmemRegVM.ip + 3 } []) ∧
    regs rmemRegVM (32770 - LIMIT) = .ok (rmemRegVM.mem 32770) :=
  c10_rmem_reads_registers rmemRegVM [] 3 32768 32770 (by decide) (by decide)
    (by decide) (by decide) (by decide) (by decide) (by decide) (by decide)

/-- C5: for resolved operand values `b, c ≤ 32767`, `add` stores
`(b + c) % 32768` and `mult` stores `(b * c) % 32768`; the intermediate
`u16` addition (modelled by the `% 65536` in the arm) cannot wrap since
`b + c ≤ 65534`, and the multiplication is performed in `u32`, which
cannot overflow either. -/
theorem c5_add_mult_mod_32768 (vm : VM) (lines : List (List Nat)) (a b c bv cv : Nat)
    (hip : ¬ vm.ip + 1 > MEM_SIZE)
    (ha : memGet vm (vm.ip + 1) = .ok a)
    (hb : memGet vm (vm.ip + 2) = .ok b)
    (hc : memGet vm (vm.ip + 3) = .ok c)
    (hbv : convert_arg vm b = .ok bv)
    (hcv : convert_arg vm c = .ok cv)
    (hbv15 : bv ≤ 32767) (hcv15 : cv ≤ 32767)
    (hdest : a < MEM_SIZE) :
    (vm.mem vm.ip = 9 → step vm lines =
      .ok (.next { vm with mem := fun j => if j = a then (bv + cv) % LIMIT else vm.mem j,
                           ip := vm.ip + 4 } lines)) ∧
    (vm.mem vm.ip = 10 → step vm lines =
      .ok (.next { vm with mem := fun j => if j = a then (bv * cv) % LIMIT else vm.mem j,
                           ip := vm.ip + 4 } lines)) := by
  have hna : ¬ LIMIT + 8 < a := by simp only [MEM_SIZE] at hdest; omega
  have hnw : (bv + cv) % 65536 = bv + cv := Nat.mod_eq_of_lt (by omega)
  constructor <;> intro h0 <;>
    simp [step, hip, h0, ha, hb, hc, hbv, hcv, store, memSet, hdest, hna, hnw,
      Except.bind, Bind.bind]

theorem c5_add_mult_mod_32768_witness :
    ((mkVM [9, 5, 32767, 1]).mem (mkVM [9, 5, 32767, 1]).ip = 9 →
      step (mkVM [9, 5, 32767, 1]) [] =
        .ok (.next { mkVM [9, 5, 32767, 1] with
          mem := fun j => if j = 5 then (32767 + 1) % LIMIT
                          else (mkVM [9, 5, 32767, 1]).mem j,
          ip := (mkVM [9, 5, 32767, 1]).ip + 4 } [])) ∧
    ((mkVM [9, 5, 32767, 1]).mem (mkVM [9, 5, 32767, 1]).ip = 10 →
      step (mkVM [9, 5, 32767, 1]) [] =
        .ok (.next { mkVM [9, 5, 32767, 1] with
          mem := fun j => if j = 5 then (32767 * 1) % LIMIT
                          else (mkVM [9, 5, 32767, 1]).mem j,
          ip := (mkVM [9, 5, 32767, 1]).ip + 4 } [])) :=
  c5_add_mult_mod_32768 (mkVM [9, 5, 32767, 1]) [] 5 32767 1 32767 1 (by decide)
    (by decide) (by decide) (by decide) (by decide) (by decide) (by decide)
    (by decide) (by decide)

/-- The two example evaluations quoted by C5: `32767 + 1 → 0` under `add`
and `200 * 200 → 7232` under `mult`, read back from the destination cell
after the step. -/
theorem c5_examples :
    stepMemAfter (mkVM [9, 5, 32767, 1]) 5 = some 0 ∧
    stepMemAfter (mkVM [10, 5, 200, 200]) 5 = some 7232 := by decide

/-- C4: `pop` on an empty stack is the fatal stack-underflow abort, while
`ret` on an empty stack is the graceful `retHalt`, an `ok` halt of the
same shape as `halt`'s `explicitHalt`; on a nonempty stack both remove
exactly the head — which is the most recently pushed word, since `push`
conses onto the head. -/
theorem c4_pop_ret_empty_stack (vm : VM) (lines : List (List Nat)) (a : Nat)
    (hip : ¬ vm.ip + 1 > MEM_SIZE) :
    (vm.mem vm.ip = 3 → memGet vm (vm.ip + 1) = .ok a →
      (vm.stack = [] → step vm lines = .error .stackUnderflow) ∧
      (∀ v rest, vm.stack = v :: rest → a < MEM_SIZE →
        step vm lines = .ok (.next { vm with
          mem := fun j => if j = a then v else vm.mem j,
          stack := rest, ip := vm.ip + 2 } lines))) ∧
    (vm.mem vm.ip = 18 →
      (vm.stack = [] → step vm lines = .ok (.halted .retHalt vm lines)) ∧
      (∀ v rest, vm.stack = v :: rest →
        step vm lines = .ok (.next { vm with stack := rest, ip := v } lines))) ∧
    (vm.mem vm.ip = 0 → step vm lines = .ok (.halted .explicitHalt vm lines)) ∧
    (∀ w, vm.mem vm.ip = 2 → memGet vm (vm.ip + 1) = .ok a →
      convert_arg vm a = .ok w →
      step vm lines =
        .ok (.next { vm with stack := w :: vm.stack, ip := vm.ip + 2 } lines)) := by
  refine ⟨fun h3 hga => ⟨fun hs => ?_, fun v rest hs hdest => ?_⟩,
    fun h18 => ⟨fun hs => ?_, fun v rest hs => ?_⟩,
    fun h0 => ?_, fun w h2 hga hw => ?_⟩
  · simp [step, hip, h3, hga, hs, Except.bind, Bind.bind]
  · have hna : ¬ LIMIT + 8 < a := by simp only [MEM_SIZE] at hdest; omega
    simp [step, hip, h3, hga, hs, store, memSet, hdest, hna, Except.bind, Bind.bind]
  · simp [step, hip, h18, hs]
  · simp [step, hip, h18, hs]
  · simp [step, hip, h0]
  · simp [step, hip, h2, hga, hw, Except.bind, Bind.bind]

theorem c4_pop_ret_empty_stack_witness :
    (popVM.mem popVM.ip = 3 → memGet popVM (popVM.ip + 1) = .ok 32768 →
      (popVM.stack = [] → step popVM [] = .error .stackUnderflow) ∧
      (∀ v rest, popVM.stack = v :: rest → 32768 < MEM_SIZE →
        step popVM [] = .ok (.next { popVM with
          mem := fun j => if j = 32768 then v else popVM.mem j,
          stack := rest, ip := popVM.ip + 2 } []))) ∧
    (popVM.mem popVM.ip = 18 →
      (popVM.stack = [] → step popVM [] = .ok (.halted .retHalt popVM [])) ∧
      (∀ v rest, popVM.stack = v :: rest →
        step popVM [] = .ok (.next { popVM with stack := rest, ip := v } []))) ∧
    (popVM.mem popVM.ip = 0 → step popVM [] = .ok (.halted .explicitHalt popVM [])) ∧
    (∀ w, popVM.mem popVM.ip = 2 → memGet popVM (popVM.ip + 1) = .ok 32768 →
      convert_arg popVM 32768 = .ok w →
      step popVM [] =
        .ok (.next { popVM with stack := w :: popVM.stack, ip := popVM.ip + 2 } [])) :=
  c4_pop_ret_empty_stack popVM [] 32768 (by decide)

/-- Supporting evaluations for C4 on concrete states: `pop` on an empty
stack errors, `ret` on an empty stack does not (it halts), and on stack
`[5]` `pop` delivers 5 into register 0. -/
theorem pop_ret_concrete :
    stepErrAfter (mkVM [3, 32768]) = some .stackUnderflow ∧
    stepErrAfter (mkVM [18]) = none ∧
    stepRegsAfter popVM 0 = some 5 := by decide

/-- C1 (amended): the `wmem` address operand is value-resolved first and
the resolved value is then used as a plain index into the unified address
space — so when the resolved value lies in the register range
`[32768, 32775]` the corresponding register cell IS the effective target
of the write (the array is shared between memory and registers). -/
theorem c1_wmem_resolved_then_indexed (vm : VM) (lines : List (List Nat))
    (a b v w : Nat)
    (hip : ¬ vm.ip + 1 > MEM_SIZE)
    (hfetch : vm.mem vm.ip = 16)
    (ha : memGet vm (vm.ip + 1) = .ok a)
    (hb : memGet vm (vm.ip + 2) = .ok b)
    (hav : convert_arg vm a = .ok v)
    (hbv : convert_arg vm b = .ok w) :
    (v < MEM_SIZE →
      step vm lines =
        .ok (.next { vm with mem := fun j => if j = v then w else vm.mem j,
                             ip := vm.ip + 3 } lines) ∧
      (LIMIT ≤ v →
        regs { vm with mem := fun j => if j = v then w else vm.mem j,
                       ip := vm.ip + 3 } (v - LIMIT) = .ok w)) ∧
    (MEM_SIZE ≤ v → step vm lines = .error (.indexOutOfBounds v)) := by
  constructor
  · intro hv
    constructor
    · simp [step, hip, hfetch, ha, hb, hav, hbv, memSet, hv, Except.bind, Bind.bind]
    · intro hL
      have h7 : ¬ 7 < v - LIMIT := by simp only [MEM_SIZE] at hv; omega
      rw [regs, if_neg h7, show LIMIT + (v - LIMIT) = v by omega, memGet, if_pos hv]
      simp
  · intro hv
    have hnv : ¬ v < MEM_SIZE := by omega
    simp [step, hip, hfetch, ha, hb, hav, hbv, memSet, hnv, Except.bind, Bind.bind]

/-- C1: a concrete `wmem` execution whose effective target is register 2:
before the step register 2 is 0, after it register 2 holds the written
value 7 — refuting "a register cell is never the effective target of a
`wmem` write". -/
theorem c1_wmem_register_target_counterexample :
    stepRegsAfter wmemCexVM 2 = some 7 ∧ regs wmemCexVM 2 = .ok 0 := by decide

theorem c1_wmem_resolved_then_indexed_witness :
    (32770 < MEM_SIZE →
      step wmemCexVM [] =
        .ok (.next { wmemCexVM with
          mem := fun j => if j = 32770 then 7 else wmemCexVM.mem j,
          ip := wmemCexVM.ip + 3 } []) ∧
      (LIMIT ≤ 32770 →
        regs { wmemCexVM with
          mem := fun j => if j = 32770 then 7 else wmemCexVM.mem j,
          ip := wmemCexVM.ip + 3 } (32770 - LIMIT) = .ok 7)) ∧
    (MEM_SIZE ≤ 32770 → step wmemCexVM [] = .error (.indexOutOfBounds 32770)) :=
  c1_wmem_resolved_then_indexed wmemCexVM [] 32768 7 32770 7 (by decide)
    (by decide) (by decide) (by decide) (by decide) (by decide)

/-- Supporting evaluation for C1's out-of-bounds branch: a `wmem` whose
address operand resolves (through register 0) to 32776 aborts with the
out-of-bounds index fault on the write. -/
theorem wmem_oob_address_aborts :
    stepErrAfter wmemOobVM = some (.indexOutOfBounds 32776) := by decide

/-- C2 (amended): destination words are used directly as indices into the
unified address space with no value resolution: a word in `[0, 32775]`
(register selector or not) writes that cell — a register exactly when the
word is `≥ 32768`, and silently a program-memory cell when it is below
32768 —, the word 32776 dies on the out-of-bounds write, and only words
`> 32776` hit the explicit invalid-address panic; for the register-write
instructions (here `set`, whose destination handling is the shared
`store`) a register-selector destination goes straight to that register. -/
theorem c2_store_destination (vm : VM) (a v : Nat) :
    (a < MEM_SIZE →
      store vm a v = .ok { vm with mem := fun j => if j = a then v else vm.mem j }) ∧
    (a = MEM_SIZE → store vm a v = .error (.indexOutOfBounds a)) ∧
    (MEM_SIZE < a → store vm a v = .error (.invalidAddr a)) ∧
    (∀ lines b w, ¬ vm.ip + 1 > MEM_SIZE → vm.mem vm.ip = 1 →
      memGet vm (vm.ip + 1) = .ok a → memGet vm (vm.ip + 2) = .ok b →
      convert_arg vm b = .ok w → LIMIT ≤ a → a ≤ LIMIT + 7 →
      step vm lines =
        .ok (.next { vm with mem := fun j => if j = a then w else vm.mem j,
                             ip := vm.ip + 3 } lines) ∧
      regs { vm with mem := fun j => if j = a then w else vm.mem j,
                     ip := vm.ip + 3 } (a - LIMIT) = .ok w) := by
  refine ⟨fun h => ?_, fun h => ?_, fun h => ?_,
    fun lines b w hip h1 hga hgb hw hL hU => ⟨?_, ?_⟩⟩
  · rw [store, if_neg (by simp only [MEM_SIZE] at h; omega), memSet, if_pos h]
  · rw [store, if_neg (by simp only [MEM_SIZE] at h ⊢; omega), memSet,
      if_neg (by omega)]
  · rw [store, if_pos (by simp only [MEM_SIZE] at h; omega)]
  · have hdest : a < MEM_SIZE := by simp only [MEM_SIZE]; omega
    have hna : ¬ LIMIT + 8 < a := by omega
    simp [step, hip, h1, hga, hgb, hw, store, memSet, hdest, hna,
      Except.bind, Bind.bind]
  · have hdest : a < MEM_SIZE := by simp only [MEM_SIZE]; omega
    have h7 : ¬ 7 < a - LIMIT := by omega
    rw [regs, if_neg h7, show LIMIT + (a - LIMIT) = a by omega, memGet, if_pos hdest]
    simp

/-- C2: `set` with the literal (non-register-selector) destination word 5
does not fail at all: the step succeeds and writes program-memory cell 5 —
refuting "the step fails fatally with InvalidOperand/InvalidAddress". -/
theorem c2_literal_dest_counterexample :
    stepMemAfter (mkVM [1, 5, 7]) 5 = some 7 ∧
    stepErrAfter (mkVM [1, 5, 7]) = none := by decide

theorem c2_store_destination_witness :
    (32770 < MEM_SIZE →
      store (mkVM [1, 32770, 7]) 32770 9 =
        .ok { mkVM [1, 32770, 7] with
          mem := fun j => if j = 32770 then 9 else (mkVM [1, 32770, 7]).mem j }) ∧
    (32770 = MEM_SIZE →
      store (mkVM [1, 32770, 7]) 32770 9 = .error (.indexOutOfBounds 32770)) ∧
    (MEM_SIZE < 32770 →
      store (mkVM [1, 32770, 7]) 32770 9 = .error (.invalidAddr 32770)) ∧
    (∀ lines b w, ¬ (mkVM [1, 32770, 7]).ip + 1 > MEM_SIZE →
      (mkVM [1, 32770, 7]).mem (mkVM [1, 32770, 7]).ip = 1 →
      memGet (mkVM [1, 32770, 7]) ((mkVM [1, 32770, 7]).ip + 1) = .ok 32770 →
      memGet (mkVM [1, 32770, 7]) ((mkVM [1, 32770, 7]).ip + 2) = .ok b →
      convert_arg (mkVM [1, 32770, 7]) b = .ok w → LIMIT ≤ 32770 → 32770 ≤ LIMIT + 7 →
      step (mkVM [1, 32770, 7]) lines =
        .ok (.next { mkVM [1, 32770, 7] with
          mem := fun j => if j = 32770 then w else (mkVM [1, 32770, 7]).mem j,
          ip := (mkVM [1, 32770, 7]).ip + 3 } lines) ∧
      regs { mkVM [1, 32770, 7] with
          mem := fun j => if j = 32770 then w else (mkVM [1, 32770, 7]).mem j,
          ip := (mkVM [1, 32770, 7]).ip + 3 } (32770 - LIMIT) = .ok w) :=
  c2_store_destination (mkVM [1, 32770, 7]) 32770 9

/-- A successful raw memory write never changes the input buffer. -/
theorem memSet_input_buffer (w : VM) (i v : Nat) (w' : VM)
    (h : memSet w i v = .ok w') : w'.input_buffer = w.input_buffer := by
  unfold memSet at h
  split at h
  · injection h with h
    subst h
    rfl
  · exact Except.noConfusion h

/-- `handle_debug` never changes the input buffer: directives act on
memory, registers and the trace flag only. -/
theorem handle_debug_input_buffer (w : VM) (line : List Nat) (w' : VM)
    (h : handle_debug w line = .ok w') : w'.input_buffer = w.input_buffer := by
  simp only [handle_debug] at h
  repeat' split at h
  all_goals
    first
      | exact memSet_input_buffer _ _ _ _ h
      | { injection h with h; subst h; rfl }

/-- C8: a pulled line beginning with the reserved prefix `.` (46) is
consumed as a debug directive: the pull loop applies `handle_debug` to
it, clears the buffer and continues pulling from the remaining lines with
an empty queue — so none of that line's character codes can ever reach an
`in` destination (only the queue feeds `in`, and `handle_debug` itself
never enqueues anything). -/
theorem c8_directive_line_not_delivered (vm vm2 : VM) (l : List Nat)
    (rest : List (List Nat))
    (hbuf : vm.input_buffer = [])
    (hdot : l.head? = some 46)
    (hdbg : handle_debug { vm with input_buffer := vm.input_buffer ++ l ++ [10] } l
      = .ok vm2) :
    refillLoop vm (l :: rest) = refillLoop { vm2 with input_buffer := [] } rest ∧
    (∀ w line w', handle_debug w line = .ok w' →
      w'.input_buffer = w.input_buffer) := by
  constructor
  · obtain ⟨c, t, rfl⟩ : ∃ c t, l = c :: t := by
      cases l with
      | nil => simp at hdot
      | cons c t => exact ⟨c, t, rfl⟩
    have hc : c = 46 := by simpa using hdot
    subst hc
    simp only [hbuf, List.nil_append, List.cons_append] at hdbg
    simp only [refillLoop, hbuf, List.nil_append, List.cons_append, List.headD_cons]
    rw [if_pos trivial, hdbg]
    simp
  · exact fun w line w' h => handle_debug_input_buffer w line w' h

theorem c8_directive_line_not_delivered_witness :
    (mkVM []).input_buffer = [] ∧
    dotDebugLine.head? = some 46 ∧
    handle_debug { mkVM [] with
      input_buffer := (mkVM []).input_buffer ++ dotDebugLine ++ [10] } dotDebugLine
      = .ok c8vm2 ∧
    (refillLoop (mkVM []) (dotDebugLine :: []) =
        refillLoop { c8vm2 with input_buffer := [] } [] ∧
      (∀ w line w', handle_debug w line = .ok w' →
        w'.input_buffer = w.input_buffer)) :=
  ⟨rfl, rfl, rfl,
    c8_directive_line_not_delivered (mkVM []) c8vm2 dotDebugLine [] rfl rfl rfl⟩

end Synacore
